import Mathlib

/-!
Formal verification of the Python Duck Machine repository
(src/bitfield.py, src/cpu.py, src/assembler_pass1.py).

The Lean definitions below are shallow embeddings of the Python source.
Python integers are arbitrary-precision signed integers, so they are
modelled as `Int` (or `Nat` where the source guarantees non-negativity);
Python's bitwise operators on possibly-negative integers (`~`, `&`, `|`)
are modelled by `Int.lnot`, `Int.land`, `Int.lor`, which have exactly
Python's two's-complement-of-infinite-width semantics.
-/

namespace Duck

/-! ## bitfield.py -/

/-- Loop from `BitField.__init__`:
`for i in range(...): mask = mask << 1; mask += 1`,
parametrised by the accumulator and the number of remaining iterations. -/
def maskLoop : Nat → Nat → Nat
  | acc, 0 => acc
  | acc, n + 1 => maskLoop (2 * acc + 1) n

/-- A bit field is a range of binary digits within an unsigned integer
(`BitField` in bitfield.py).  `from_bit` and `to_bit` are the Python
constructor arguments; the source treats them as non-negative bit
positions (bit 0 low-order), so they are `Nat` here. -/
structure BitField where
  from_bit : Nat
  to_bit : Nat
deriving DecidableEq

namespace BitField

/-- `self.width = to_bit - from_bit + 1`. -/
def width (bf : BitField) : Nat := bf.to_bit - bf.from_bit + 1

/-- `self.mask`, built by the loop over `range(self.from_bit, self.to_bit + 1)`,
which runs `to_bit + 1 - from_bit` times (zero times when the range is empty,
matching Python's `range`). -/
def mask (bf : BitField) : Nat := maskLoop 0 (bf.to_bit + 1 - bf.from_bit)

/-- `self.shifted_mask = self.mask << self.from_bit`. -/
def shifted_mask (bf : BitField) : Nat := bf.mask <<< bf.from_bit

/-- `self.mask_inverse = ~self.shifted_mask` (Python `~` on an unbounded int). -/
def mask_inverse (bf : BitField) : Int := Int.lnot (bf.shifted_mask : Int)

/-- `insert`: `(self.shifted_mask & (field_val << self.from_bit)) | word & self.mask_inverse`.
Python `<<` on an int is exact multiplication by a power of two. -/
def insert (bf : BitField) (field_val : Int) (word : Int) : Int :=
  Int.lor (Int.land (bf.shifted_mask : Int) (field_val * 2 ^ bf.from_bit))
    (Int.land word bf.mask_inverse)

/-- `extract`: `(self.shifted_mask & word) >> self.from_bit`.
Python `>>` on an int is a floor shift, i.e. floor division by a power of
two, which is `Int.fdiv`. -/
def extract (bf : BitField) (word : Int) : Int :=
  Int.fdiv (Int.land (bf.shifted_mask : Int) word) (2 ^ bf.from_bit)

end BitField

/-- `sign_extend(field, width)` from bitfield.py.  The source asserts
`field >= 0`, so the field argument is a `Nat`; the result can be negative,
so it is an `Int`.  `sign_bit = 1 << (width - 1)`, `mask = sign_bit - 1`;
if `field & sign_bit` is nonzero the result is `(field & mask) - sign_bit`. -/
def sign_extend (field : Nat) (width : Nat) : Int :=
  let sign_bit : Nat := 1 <<< (width - 1)
  let mask : Nat := sign_bit - 1
  if field &&& sign_bit ≠ 0 then ((field &&& mask : Nat) : Int) - (sign_bit : Int)
  else (field : Int)

/-- `extract_signed`: `sign_extend(self.extract(word), self.width)`.
`extract` always returns a non-negative integer, which `toNat` reflects. -/
def BitField.extract_signed (bf : BitField) (word : Int) : Int :=
  sign_extend (bf.extract word).toNat bf.width

/-! ### Auxiliary lemmas about the bit-level functions -/

theorem maskLoop_eq (n : Nat) : ∀ acc : Nat, maskLoop acc n = (acc + 1) * 2 ^ n - 1 := by
  induction n with
  | zero => intro acc; simp [maskLoop]
  | succ k ih =>
      intro acc
      rw [maskLoop, ih (2 * acc + 1), pow_succ]
      ring_nf

theorem mask_eq (bf : BitField) (h : bf.from_bit ≤ bf.to_bit) :
    bf.mask = 2 ^ bf.width - 1 := by
  have : bf.to_bit + 1 - bf.from_bit = bf.width := by
    unfold BitField.width; omega
  rw [BitField.mask, this, maskLoop_eq]
  simp

theorem testBit_shifted_mask (bf : BitField) (h : bf.from_bit ≤ bf.to_bit) (k : Nat) :
    bf.shifted_mask.testBit k
      = (decide (bf.from_bit ≤ k) && decide (k - bf.from_bit < bf.width)) := by
  rw [BitField.shifted_mask, mask_eq bf h, Nat.testBit_shiftLeft,
    Nat.testBit_two_pow_sub_one]

/-- The `Nat`-level counterpart of `insert` on non-negative inputs. -/
def insertN (bf : BitField) (v w : Nat) : Nat :=
  (bf.shifted_mask &&& (v <<< bf.from_bit)) ||| Nat.ldiff w bf.shifted_mask

/-- The `Nat`-level counterpart of `extract` on non-negative inputs. -/
def extractN (bf : BitField) (w : Nat) : Nat :=
  (bf.shifted_mask &&& w) >>> bf.from_bit

theorem insert_ofNat (bf : BitField) (v w : Nat) :
    bf.insert (v : Int) (w : Int) = (insertN bf v w : Int) := by
  have h1 : ((v : Int) * 2 ^ bf.from_bit) = ((v <<< bf.from_bit : Nat) : Int) := by
    rw [Nat.shiftLeft_eq]; push_cast; ring
  rw [BitField.insert, BitField.mask_inverse, h1]
  rfl

theorem extract_ofNat (bf : BitField) (w : Nat) :
    bf.extract (w : Int) = (extractN bf w : Int) := by
  have hland : Int.land (bf.shifted_mask : Int) (w : Int)
      = ((bf.shifted_mask &&& w : Nat) : Int) := rfl
  have hpow : ((2 : Int) ^ bf.from_bit) = ((2 ^ bf.from_bit : Nat) : Int) := by
    push_cast; ring
  rw [BitField.extract, hland, hpow, Int.fdiv_eq_ediv _ (by positivity),
    ← Int.natCast_div, extractN, Nat.shiftRight_eq_div_pow]

theorem testBit_insertN (bf : BitField) (v w : Nat) (k : Nat) :
    (insertN bf v w).testBit k
      = ((bf.shifted_mask.testBit k && (v <<< bf.from_bit).testBit k)
          || (w.testBit k && !bf.shifted_mask.testBit k)) := by
  rw [insertN, Nat.testBit_or, Nat.testBit_and, Nat.testBit_ldiff]

theorem extractN_insertN (bf : BitField) (v w : Nat)
    (h : bf.from_bit ≤ bf.to_bit) (hv : v < 2 ^ bf.width) :
    extractN bf (insertN bf v w) = v := by
  apply Nat.eq_of_testBit_eq
  intro k
  rw [extractN, Nat.testBit_shiftRight, Nat.testBit_and, testBit_insertN,
    testBit_shifted_mask bf h, Nat.testBit_shiftLeft]
  have h1 : bf.from_bit ≤ bf.from_bit + k := Nat.le_add_right _ _
  have h2 : bf.from_bit + k - bf.from_bit = k := by omega
  by_cases hk : k < bf.width
  · simp [h1, h2, hk, ge_iff_le]
  · have hvk : v.testBit k = false :=
      Nat.testBit_lt_two_pow (lt_of_lt_of_le hv (Nat.pow_le_pow_right (by norm_num) (by omega)))
    simp [h1, h2, hk, hvk, ge_iff_le]

theorem testBit_insertN_outside (bf : BitField) (v w : Nat)
    (h : bf.from_bit ≤ bf.to_bit) (k : Nat)
    (hk : k < bf.from_bit ∨ bf.to_bit < k) :
    (insertN bf v w).testBit k = w.testBit k := by
  have hmask : bf.shifted_mask.testBit k = false := by
    rw [testBit_shifted_mask bf h]
    rcases hk with hk | hk
    · simp [Nat.not_le.mpr hk]
    · have : ¬ (k - bf.from_bit < bf.width) := by unfold BitField.width; omega
      simp [this]
  rw [testBit_insertN, hmask]
  simp

/-- C4: For every BitField with 0 ≤ from_bit ≤ to_bit ≤ 31, every 32-bit word
w, and every field value v with 0 ≤ v < 2^width (width = to_bit - from_bit + 1):
extract(insert(v, w)) == v, and insert(v, w) agrees with w on every bit
position outside the range [from_bit, to_bit]. -/
theorem C4_bitfield_insert_extract (bf : BitField) (w v : Int)
    (h1 : bf.from_bit ≤ bf.to_bit) (h2 : bf.to_bit ≤ 31)
    (hw0 : 0 ≤ w) (hw : w < 2 ^ 32) (hv0 : 0 ≤ v) (hv : v < 2 ^ bf.width) :
    bf.extract (bf.insert v w) = v ∧
    ∀ k : Nat, k < bf.from_bit ∨ bf.to_bit < k →
      (bf.insert v w).toNat.testBit k = w.toNat.testBit k := by
  lift v to ℕ using hv0 with v'
  lift w to ℕ using hw0 with w'
  have hv' : v' < 2 ^ bf.width := by exact_mod_cast hv
  rw [insert_ofNat, extract_ofNat]
  constructor
  · exact_mod_cast congrArg (fun n : Nat => (n : Int)) (extractN_insertN bf v' w' h1 hv')
  · intro k hk
    rw [Int.toNat_natCast, Int.toNat_natCast]
    exact testBit_insertN_outside bf v' w' h1 k hk

theorem C4_bitfield_insert_extract_witness :
    BitField.extract ⟨2, 5⟩ (BitField.insert ⟨2, 5⟩ 9 4095) = 9 ∧
    (BitField.insert ⟨2, 5⟩ 9 4095).toNat.testBit 1 = (4095 : Int).toNat.testBit 1 := by
  have h := C4_bitfield_insert_extract ⟨2, 5⟩ 4095 9 (by decide) (by decide)
    (by decide) (by decide) (by decide) (by decide)
  exact ⟨h.1, h.2 1 (Or.inl (by decide))⟩

/-- C7: For every width ≥ 2 and every field value f with 0 ≤ f < 2^width,
sign_extend(f, width) returns f when bit width-1 of f is 0 (hence a
non-negative result), and returns f - 2^width when bit width-1 of f is 1. -/
theorem C7_sign_extend (field width : Nat) (hwidth : 2 ≤ width)
    (hf : field < 2 ^ width) :
    (field.testBit (width - 1) = false →
        sign_extend field width = (field : Int) ∧ 0 ≤ sign_extend field width) ∧
    (field.testBit (width - 1) = true →
        sign_extend field width = (field : Int) - 2 ^ width) := by
  have hsb : (1 <<< (width - 1) : Nat) = 2 ^ (width - 1) := Nat.one_shiftLeft _
  have hand := Nat.and_two_pow field (width - 1)
  constructor
  · intro htb
    rw [htb] at hand
    simp only [Bool.toNat_false, Nat.zero_mul] at hand
    simp [sign_extend, hsb, hand]
  · intro htb
    rw [htb] at hand
    simp only [Bool.toNat_true, Nat.one_mul] at hand
    have hq1 : field / 2 ^ (width - 1) = 1 := by
      have hlt : field / 2 ^ (width - 1) < 2 := by
        apply Nat.div_lt_of_lt_mul
        have hsp : 2 ^ width = 2 ^ (width - 1) * 2 := by
          rw [← pow_succ]
          congr 1
          omega
        omega
      have hm : field / 2 ^ (width - 1) % 2 = 1 := by
        have h := Nat.testBit_to_div_mod (x := field) (i := width - 1)
        rw [htb] at h
        exact of_decide_eq_true h.symm
      generalize hq : field / 2 ^ (width - 1) = q at hlt hm
      omega
    have hdm := Nat.div_add_mod field (2 ^ (width - 1))
    rw [hq1, Nat.mul_one] at hdm
    have hpw : ((2 : Int) ^ width) = ((2 ^ width : Nat) : Int) := by push_cast; ring
    have hwn : (2 ^ width : Nat) = 2 ^ (width - 1) * 2 := by
      rw [← pow_succ]
      congr 1
      omega
    have hne : field &&& 2 ^ (width - 1) ≠ 0 := by
      rw [hand]; positivity
    simp only [sign_extend, hsb, if_pos hne, Nat.and_pow_two_sub_one_eq_mod, hpw, hwn]
    omega

theorem C7_sign_extend_witness :
    sign_extend 2 3 = (2 : Int) ∧ sign_extend 5 3 = (5 : Int) - 2 ^ 3 := by
  refine ⟨((C7_sign_extend 2 3 (by decide) (by decide)).1 (by decide)).1, ?_⟩
  exact (C7_sign_extend 5 3 (by decide) (by decide)).2 (by decide)

/-! ## cpu.py

`CPU.step` in src/cpu.py is the code under verification.  Its collaborators
(`instr_format.py`, `alu.py`, `register.py`, `memory.py`, `mvc.py`) are not
under src/; they are modelled from the spec where the claims need them.
The observer notification (`notify_all`) only emits an event to read-only
listeners (spec §6), so it has no effect on the modelled state. -/

/-- Modelled from the spec: the `OpCode` enumeration of `instr_format.py`
(not under src/).  Per §3 it is a closed enumeration with "at least ADD and
other ALU ops plus the three control opcodes LOAD, STORE, HALT"; SUB and MUL
stand for the other ALU ops.  cpu.py dispatches on LOAD, STORE and HALT and
treats every other opcode uniformly, which is all the claims depend on. -/
inductive OpCode
  | ADD
  | SUB
  | MUL
  | LOAD
  | STORE
  | HALT
deriving DecidableEq

/-- Modelled from the spec: the decoded `Instruction` record of
`instr_format.py` (not under src/): opcode, condition mask, target register
index, two source register indices and a signed offset (§3).  The condition
mask is the bitmask value of a `CondFlag` (§3: "CondFlag is a bitmask"). -/
structure Instruction where
  op : OpCode
  cond : Nat
  reg_target : Fin 16
  reg_src1 : Fin 16
  reg_src2 : Fin 16
  offset : Int
deriving DecidableEq

/-- Modelled from the spec: a 32-bit word-truncated result (§3: "all
arithmetic on it must be interpreted modulo 2^32"). -/
def wordTrunc (x : Int) : Int := x % (2 ^ 32)

/-- Modelled from the spec: the `CondFlag` bits derived from a result's
sign and zero-ness (§4.3); bit values are a modelling choice, the claims
only use the bitmask-intersection test. -/
def condFlagOf (r : Int) : Nat := if r < 0 then 1 else if r = 0 then 2 else 4

/-- Modelled from the spec: `ALU.exec(op, op1, op2) -> (result, flags)` of
`alu.py` (not under src/).  Arithmetic ops produce the word-truncated result
(§4.3); LOAD and STORE compute the effective address `op1 + op2`; HALT
performs no computation.  Flags derive from the result (§4.3). -/
def aluExec : OpCode → Int → Int → Int × Nat
  | .ADD, a, b => (wordTrunc (a + b), condFlagOf (wordTrunc (a + b)))
  | .SUB, a, b => (wordTrunc (a - b), condFlagOf (wordTrunc (a - b)))
  | .MUL, a, b => (wordTrunc (a * b), condFlagOf (wordTrunc (a * b)))
  | .LOAD, a, b => (wordTrunc (a + b), condFlagOf (wordTrunc (a + b)))
  | .STORE, a, b => (wordTrunc (a + b), condFlagOf (wordTrunc (a + b)))
  | .HALT, _, _ => (0, condFlagOf 0)

/-- Modelled from the spec: reading register `i` from the register file of
`register.py` (not under src/).  Register 0 is the ZeroRegister: it always
reads as zero (§3). -/
def regGet (regs : Fin 16 → Int) (i : Fin 16) : Int :=
  if i = 0 then 0 else regs i

/-- Modelled from the spec: writing register `i`.  The ZeroRegister at
index 0 discards writes (§3). -/
def regPut (regs : Fin 16 → Int) (i : Fin 16) (v : Int) : Fin 16 → Int :=
  if i = 0 then regs else Function.update regs i v

/-- Modelled from the spec: a memory write (`memory.py` is not under src/;
§3 models Memory as an addressable sequence of words).  The memory-mapped
I/O device is an external collaborator (§2, out of scope), so memory is
plain storage here. -/
def memPut (mem : Int → Int) (addr : Int) (v : Int) : Int → Int :=
  Function.update mem addr v

/-- The mutable state owned by one CPU instance (cpu.py `CPU.__init__`):
sixteen registers (register 15 is the program counter), the attached
memory, the current condition flags and the halted flag. -/
structure CPUState where
  regs : Fin 16 → Int
  mem : Int → Int
  condition : Nat
  halted : Bool

/-- Lines 54–56 of cpu.py, the operands handed to the ALU:
`regsrc2 = self.registers[instr.reg_src2].get()` followed by
`regsrc2 = regsrc2 + instr.offset`.  These lines run *before*
`self.pc.put(self.pc.get() + 1)`. -/
def aluSecondOperand (s : CPUState) (instr : Instruction) : Int :=
  regGet s.regs instr.reg_src2 + instr.offset

/-- `CPU.step` of cpu.py, acting on a fetched-and-decoded instruction.
The fetch (`self.memory.get(self.pc.get())`) and `decode` have no effect
on the modelled state, and the claims quantify over the fetched
instruction, so the step takes the decoded instruction as an argument.
The body transcribes cpu.py lines 53–72 in order: predicate test, source
register reads, PC increment, ALU execution, condition update, and the
opcode dispatch (LOAD / STORE / HALT / default writeback). -/
def step (s : CPUState) (instr : Instruction) : CPUState :=
  if s.condition &&& instr.cond ≠ 0 then
    let regsrc1 := regGet s.regs instr.reg_src1
    let regsrc2 := aluSecondOperand s instr
    let s1 : CPUState := { s with regs := regPut s.regs 15 (regGet s.regs 15 + 1) }
    let rc := aluExec instr.op regsrc1 regsrc2
    let s2 : CPUState := { s1 with condition := rc.2 }
    match instr.op with
    | .LOAD => { s2 with regs := regPut s2.regs instr.reg_target (s2.mem rc.1) }
    | .STORE => { s2 with mem := memPut s2.mem rc.1 (regGet s2.regs instr.reg_target) }
    | .HALT => { s2 with halted := true }
    | _ => { s2 with regs := regPut s2.regs instr.reg_target rc.1 }
  else
    { s with regs := regPut s.regs 15 (regGet s.regs 15 + 1) }

/-- A concrete CPU state used for the counterexample: all registers zero
(so the PC at fetch is 0), empty memory, condition flags ALWAYS-like bit 1
set, not halted. -/
def cexState : CPUState :=
  { regs := fun _ => 0, mem := fun _ => 0, condition := 1, halted := false }

/-- A concrete instruction whose src2 register is the program counter
register r15: `ADD r1,r0,r15[0]` with a condition mask that intersects the
current flags. -/
def cexInstr : Instruction :=
  { op := .ADD, cond := 1, reg_target := 1, reg_src1 := 0, reg_src2 := 15,
    offset := 0 }

/-- C1, counterexample: the claim states that for a step that passes the
predicate check and whose src2 is r15, the ALU's second operand equals
(PC-at-fetch + 1) + offset.  At the concrete state with PC 0 and offset 0
the operand is 0, not 1: the source registers are read (cpu.py lines
54–56) before the PC is advanced (line 58). -/
theorem C1_counterexample :
    cexState.condition &&& cexInstr.cond ≠ 0 ∧
    cexInstr.reg_src2 = 15 ∧
    aluSecondOperand cexState cexInstr
      ≠ (regGet cexState.regs 15 + 1) + cexInstr.offset := by
  refine ⟨by decide, by decide, ?_⟩
  simp [aluSecondOperand, regGet, cexState, cexInstr]

/-- C1, amended: for every CPU step whose instruction passes the predicate
check, the source registers are read *before* the program counter is
advanced, so when the instruction's src2 register is r15 the ALU's second
operand equals PC-at-fetch + offset (not PC-at-fetch + 1 + offset); for an
ADD this word-truncated sum of src1 and (PC-at-fetch + offset) is what
lands in the target register. -/
theorem C1_pc_relative_base (s : CPUState) (instr : Instruction)
    (hcond : s.condition &&& instr.cond ≠ 0)
    (hsrc2 : instr.reg_src2 = 15)
    (hop : instr.op = .ADD)
    (htgt : instr.reg_target ≠ 0) :
    aluSecondOperand s instr = regGet s.regs 15 + instr.offset ∧
    regGet (step s instr).regs instr.reg_target
      = wordTrunc (regGet s.regs instr.reg_src1
          + (regGet s.regs 15 + instr.offset)) := by
  constructor
  · rw [aluSecondOperand, hsrc2]
  · rw [step, if_pos hcond, hop]
    simp only [aluExec, aluSecondOperand, hsrc2]
    rw [regGet, if_neg htgt, regPut, if_neg htgt, Function.update_same]

theorem C1_pc_relative_base_witness :
    aluSecondOperand cexState cexInstr = regGet cexState.regs 15 + cexInstr.offset ∧
    regGet (step cexState cexInstr).regs cexInstr.reg_target
      = wordTrunc (regGet cexState.regs cexInstr.reg_src1
          + (regGet cexState.regs 15 + cexInstr.offset)) :=
  C1_pc_relative_base cexState cexInstr (by decide) (by decide) rfl (by decide)

/-- C3: For every CPU state and every fetched instruction whose condition
mask has empty intersection with the current condition flags, one CPU step
leaves every register other than the program counter, all of memory, the
condition flags, and the halted flag unchanged, and advances the program
counter by exactly one. -/
theorem C3_predicated_skip_frame (s : CPUState) (instr : Instruction)
    (h : s.condition &&& instr.cond = 0) :
    (∀ i : Fin 16, i ≠ 15 → (step s instr).regs i = s.regs i) ∧
    (step s instr).mem = s.mem ∧
    (step s instr).condition = s.condition ∧
    (step s instr).halted = s.halted ∧
    regGet (step s instr).regs 15 = regGet s.regs 15 + 1 := by
  have hstep : step s instr = { s with regs := regPut s.regs 15 (regGet s.regs 15 + 1) } := by
    rw [step, if_neg (by simp [h])]
  rw [hstep]
  refine ⟨?_, rfl, rfl, rfl, ?_⟩
  · intro i hi
    simp [regPut, Function.update_noteq hi]
  · simp [regGet, regPut, Function.update_same]

/-- A concrete state whose condition flags (bit 2) miss the concrete
instruction's condition mask (bit 4). -/
def skipState : CPUState :=
  { regs := fun _ => 7, mem := fun _ => 3, condition := 2, halted := false }

theorem C3_predicated_skip_frame_witness :
    (step skipState cexInstr).regs 3 = skipState.regs 3 ∧
    (step skipState cexInstr).mem = skipState.mem ∧
    (step skipState cexInstr).condition = skipState.condition ∧
    (step skipState cexInstr).halted = skipState.halted ∧
    regGet (step skipState cexInstr).regs 15 = regGet skipState.regs 15 + 1 := by
  have h := C3_predicated_skip_frame skipState cexInstr (by decide)
  exact ⟨h.1 3 (by decide), h.2.1, h.2.2.1, h.2.2.2.1, h.2.2.2.2⟩

/-! ## assembler_pass1.py

The four line grammars (ASM_FULL_PAT, ASM_DATA_PAT, ASM_COMMENT_PAT,
ASM_SYMBOL_PAT) are Python regexes used with `fullmatch`.  Each is
hand-compiled below into a deterministic parser over `List Char`.  The
compilation is faithful because no backtracking choice in these patterns
can change the outcome:

* the optional label `([a-zA-Z]\w*):` can only match a maximal word-char
  run at the start of the line followed by a colon, since a colon is not a
  word char, and committing to it is safe: if the line starts with
  `name:`, the no-label alternative would have to match an opcode /
  comment element against `name:`, which always fails at the colon;
* greedy runs (`[a-zA-Z]+`, `[0-9]+`, `[\w]+`, `[a-fA-F0-9]+`, `\s+`)
  never need to backtrack, because the element that follows each run can
  never match a character of the run's own class;
* optional groups (predicate, target-with-comma, offset brackets, comment)
  either commit or fail the whole match, because on their first character
  (`/`, `r`+digits+`,`, `[`, `#`/`;`) the element after the group cannot
  match.

The character classes are modelled at their ASCII core (Python `\w`/`\s`
also accept further Unicode word/space characters; all opcodes, register
names and the claims' inputs are ASCII). -/

/-- ASCII model of the regex word-character class (backslash-w). -/
def isWordChar (c : Char) : Bool := c.isAlpha || c.isDigit || c = '_'

/-- ASCII model of the regex whitespace class (backslash-s). -/
def isSpacePy (c : Char) : Bool :=
  c = ' ' || c = '\t' || c = '\n' || c = '\r' || c = '\x0b' || c = '\x0c'

/-- The regex class [a-fA-F0-9] from ASM_DATA_PAT. -/
def isHexDigitPy (c : Char) : Bool :=
  c.isDigit || ('a' ≤ c && c ≤ 'f') || ('A' ≤ c && c ≤ 'F')

/-- `AsmSrcKind` from assembler_pass1.py. -/
inductive AsmSrcKind
  | COMMENT
  | FULL
  | DATA
  | SYMBOL
deriving DecidableEq

/-- The dict of captured groups returned by `parse_line`, plus the `kind`
field it adds.  A group that a pattern does not define, or defines but
does not match, is `none` (Python `None`).  No code path of
assembler_pass1.py reads a key missing from the matched pattern's
groupdict, so one record for all four patterns is faithful. -/
structure Fields where
  label : Option String := none
  opcode : Option String := none
  predicate : Option String := none
  target : Option String := none
  src1 : Option String := none
  src2 : Option String := none
  offset : Option String := none
  symbol : Option String := none
  value : Option String := none
  comment : Option String := none
  kind : AsmSrcKind
deriving DecidableEq

/-- Optional label `(([a-zA-Z]\w*):)?` at the start of the line. -/
def matchLabel : List Char → Option String × List Char
  | [] => (none, [])
  | c :: cs =>
    if c.isAlpha then
      match cs.dropWhile isWordChar with
      | ':' :: r => (some (String.mk (c :: cs.takeWhile isWordChar)), r)
      | _ => (none, c :: cs)
    else (none, c :: cs)

/-- Optional predicate `(/([a-zA-Z]+))?`.  A slash not followed by letters
fails the whole match: the group cannot match, and the mandatory `\s+`
that follows the group in both FULL and SYMBOL cannot match the slash. -/
def matchPred : List Char → Option (Option String × List Char)
  | '/' :: cs =>
    let run := cs.takeWhile Char.isAlpha
    if run.isEmpty then none
    else some (some (String.mk run), cs.dropWhile Char.isAlpha)
  | cs => some (none, cs)

/-- Mandatory whitespace `\s+`. -/
def matchWs1 : List Char → Option (List Char)
  | c :: cs => if isSpacePy c then some (cs.dropWhile isSpacePy) else none
  | [] => none

/-- A register name `r[0-9]+`. -/
def matchReg : List Char → Option (String × List Char)
  | 'r' :: cs =>
    let ds := cs.takeWhile Char.isDigit
    if ds.isEmpty then none
    else some (String.mk ('r' :: ds), cs.dropWhile Char.isDigit)
  | _ => none

/-- A literal comma. -/
def matchComma : List Char → Option (List Char)
  | ',' :: cs => some cs
  | _ => none

/-- A literal string of characters. -/
def matchLit : List Char → List Char → Option (List Char)
  | [], cs => some cs
  | l :: ls, c :: cs => if c = l then matchLit ls cs else none
  | _ :: _, [] => none

/-- Optional offset `(\[([-]?[0-9]+)\])?` after src2 in ASM_FULL_PAT.  A
`[` that is not followed by a well-formed bracketed number fails the whole
match, since the comment tail cannot match `[`. -/
def matchOffset : List Char → Option (Option String × List Char)
  | '[' :: cs =>
    let (sgn, cs1) : List Char × List Char :=
      match cs with
      | '-' :: r => (['-'], r)
      | _ => ([], cs)
    let ds := cs1.takeWhile Char.isDigit
    if ds.isEmpty then none
    else
      match cs1.dropWhile Char.isDigit with
      | ']' :: r => some (some (String.mk (sgn ++ ds)), r)
      | _ => none
  | cs => some (none, cs)

/-- The common pattern tail `(\s*([#;].*))?\s*$` under `fullmatch`:
optional whitespace, an optional comment running to the end of the line
(`.` does not match a newline), and remaining characters all whitespace. -/
def matchTail (cs : List Char) : Option (Option String) :=
  match cs.dropWhile isSpacePy with
  | [] => some none
  | c :: rest =>
    if c = '#' || c = ';' then
      if (rest.dropWhile (fun d => d != '\n')).all isSpacePy then
        some (some (String.mk (c :: rest.takeWhile (fun d => d != '\n'))))
      else none
    else none

/-- ASM_FULL_PAT: label? `\s*` opcode `[a-zA-Z]+` predicate? `\s+`
target `r[0-9]+,` src1 `r[0-9]+,` src2 `r[0-9]+` offset? comment-tail. -/
def matchFull (l : List Char) : Option Fields := do
  let (lab, cs) := matchLabel l
  let cs := cs.dropWhile isSpacePy
  let op := cs.takeWhile Char.isAlpha
  if op.isEmpty then none
  else
    let cs := cs.dropWhile Char.isAlpha
    let (pred, cs) ← matchPred cs
    let cs ← matchWs1 cs
    let (tgt, cs) ← matchReg cs
    let cs ← matchComma cs
    let (s1, cs) ← matchReg cs
    let cs ← matchComma cs
    let (s2, cs) ← matchReg cs
    let (off, cs) ← matchOffset cs
    let com ← matchTail cs
    some { label := lab, opcode := some (String.mk op), predicate := pred,
           target := some tgt, src1 := some s1, src2 := some s2, offset := off,
           comment := com, kind := .FULL }

/-- The optional value `((0x[a-fA-F0-9]+)|([0-9]+))?` of ASM_DATA_PAT.  If
the first alternative `0x`+hex cannot complete, the second can still match
the single leading `0` digit (the overall match then fails at the tail on
the following `x`, exactly as the backtracking regex does). -/
def matchValue : List Char → Option String × List Char
  | '0' :: 'x' :: cs =>
    let hs := cs.takeWhile isHexDigitPy
    if hs.isEmpty then (some "0", 'x' :: cs)
    else (some (String.mk ('0' :: 'x' :: hs)), cs.dropWhile isHexDigitPy)
  | cs =>
    let ds := cs.takeWhile Char.isDigit
    if ds.isEmpty then (none, cs)
    else (some (String.mk ds), cs.dropWhile Char.isDigit)

/-- ASM_DATA_PAT: label? `\s*` `DATA` `\s*` value? comment-tail. -/
def matchData (l : List Char) : Option Fields := do
  let (lab, cs) := matchLabel l
  let cs := cs.dropWhile isSpacePy
  let cs ← matchLit ['D', 'A', 'T', 'A'] cs
  let cs := cs.dropWhile isSpacePy
  let (v, cs) := matchValue cs
  let com ← matchTail cs
  some { label := lab, opcode := some "DATA", value := v, comment := com,
         kind := .DATA }

/-- ASM_COMMENT_PAT: label? `\s*` comment? `\s*$`. -/
def matchComment (l : List Char) : Option Fields := do
  let (lab, cs) := matchLabel l
  let com ← matchTail cs
  some { label := lab, comment := com, kind := .COMMENT }

/-- The opcode alternation `LOAD | STORE | JUMP` of ASM_SYMBOL_PAT. -/
def matchSymOpcode (cs : List Char) : Option (String × List Char) :=
  match matchLit ['L', 'O', 'A', 'D'] cs with
  | some r => some ("LOAD", r)
  | none =>
    match matchLit ['S', 'T', 'O', 'R', 'E'] cs with
    | some r => some ("STORE", r)
    | none =>
      match matchLit ['J', 'U', 'M', 'P'] cs with
      | some r => some ("JUMP", r)
      | none => none

/-- The optional target group `((r[0-9]+),)?` of ASM_SYMBOL_PAT: a
register name immediately followed by a comma, otherwise unmatched (the
symbol `[\w]+` then consumes the register-like text). -/
def matchTargetOpt (cs : List Char) : Option String × List Char
  :=
  match matchReg cs with
  | some (t, r) =>
    match r with
    | ',' :: r2 => (some t, r2)
    | _ => (none, cs)
  | none => (none, cs)

/-- ASM_SYMBOL_PAT: label? `\s*` (LOAD|STORE|JUMP) predicate? `\s+`
target? symbol `[\w]+` comment-tail. -/
def matchSymbol (l : List Char) : Option Fields := do
  let (lab, cs) := matchLabel l
  let cs := cs.dropWhile isSpacePy
  let (op, cs) ← matchSymOpcode cs
  let (pred, cs) ← matchPred cs
  let cs ← matchWs1 cs
  let (tgt, cs) := matchTargetOpt cs
  let sym := cs.takeWhile isWordChar
  if sym.isEmpty then none
  else
    let cs := cs.dropWhile isWordChar
    let com ← matchTail cs
    some { label := lab, opcode := some op, predicate := pred, target := tgt,
           symbol := some (String.mk sym), comment := com, kind := .SYMBOL }

/-- `parse_line` from assembler_pass1.py: try the patterns in the fixed
order FULL, DATA, COMMENT, SYMBOL (`PATTERNS`); the first full match wins
and sets `kind`.  `none` models the `SyntaxError` raised when no pattern
matches. -/
def parse_line (line : String) : Option Fields :=
  match matchFull line.toList with
  | some f => some f
  | none =>
    match matchData line.toList with
    | some f => some f
    | none =>
      match matchComment line.toList with
      | some f => some f
      | none => matchSymbol line.toList

/-- Truthiness of an optional string field, Python `bool(fields[...])`:
`None` and the empty string are falsy. -/
def pyBool : Option String → Bool
  | none => false
  | some s => !s.isEmpty

/-- Python `str.format` rendering of an optional string: `None` prints as
the literal text "None". -/
def pyStr : Option String → String
  | none => "None"
  | some s => s

/-- The per-line exceptions reported by build_table and transform_line:
`SyntaxError` from parse_line ("Syntax error in line"), `KeyError` from a
failed dict/enumeration lookup ("Unknown word in line"), and any other
exception ("Exception encountered in line"). -/
inductive PyExc
  | synErr
  | keyErr
  | excErr
deriving DecidableEq

/-- A Python dict as an association list: insertion prepends, lookup takes
the most recent binding, so re-inserting a key overwrites its value. -/
def dictInsert (d : List (String × Nat)) (k : String) (v : Nat) :
    List (String × Nat) :=
  (k, v) :: d

/-- Dict lookup; `none` models a `KeyError`. -/
def dictGet? (d : List (String × Nat)) (k : String) : Option Nat :=
  match d.find? (fun kv => kv.1 == k) with
  | some kv => some kv.2
  | none => none

/-- The loop state of `build_table`: the symbol table `datadict`, the
`address` counter, and the per-line errors printed by the except clauses. -/
structure Pass1State where
  table : List (String × Nat)
  address : Nat
  errors : List PyExc
deriving DecidableEq

/-- One iteration of the `build_table` loop (assembler_pass1.py lines
199–222): parse the line; on a label record `label → address`; bump
`address` unless the line is comment-only; a `SyntaxError` from
`parse_line` is caught and reported, leaving table and address unchanged.
(No other exception can arise in this loop body: `parse_line` only raises
`SyntaxError`, and every key it reads exists in the matched groupdict.) -/
def build_table_step (st : Pass1State) (line : String) : Pass1State :=
  match parse_line line with
  | none => { st with errors := st.errors ++ [.synErr] }
  | some fields =>
    if pyBool fields.label then
      let table := dictInsert st.table (pyStr fields.label) st.address
      if fields.kind ≠ .COMMENT then
        { st with table := table, address := st.address + 1 }
      else
        { st with table := table }
    else if fields.kind ≠ .COMMENT then
      { st with address := st.address + 1 }
    else
      st

/-- `build_table(lines)` (pass 1), returning the full loop state. -/
def build_table (lines : List String) : Pass1State :=
  lines.foldl build_table_step { table := [], address := 0, errors := [] }

/-- `value_parse` from assembler_pass1.py: decimal, or hex after a `0x`
prefix.  Total here; Python's `int()` would raise on text outside the
grammar, but `transform_line` only passes values captured by
ASM_DATA_PAT's literal grammar (the `None` case is handled at the call
site, where Python raises `AttributeError` inside `value_parse`). -/
def value_parse (s : String) : Nat :=
  if s.startsWith "0x" then
    (s.drop 2).toList.foldl (fun a c => 16 * a + (c.toNat - (if c.isDigit then '0'.toNat else if 'a' ≤ c then 'a'.toNat - 10 else 'A'.toNat - 10))) 0
  else
    s.toList.foldl (fun a c => 10 * a + (c.toNat - '0'.toNat)) 0

/-- `fill_defaults` with `INSTR_DEFAULTS`: predicate defaults to "ALWAYS"
and offset to "0" when the captured group is `None`. -/
def fill_defaults (f : Fields) : Fields :=
  let f1 := if f.predicate = none then { f with predicate := some "ALWAYS" } else f
  if f1.offset = none then { f1 with offset := some "0" } else f1

/-- Modelled from the spec: the `OpCode` enumeration names of
`instr_format.py` (not under src/).  §3 makes OpCode a closed enumeration
("at least ADD and other ALU ops plus the three control opcodes LOAD,
STORE, HALT"); the claims only depend on names like "BOGUS" being outside
the enumeration. -/
def opcodeNames : List String := ["ADD", "SUB", "MUL", "DIV", "LOAD", "STORE", "HALT"]

/-- Modelled from the spec: the `CondFlag` enumeration names (§3: a
bitmask of negative, zero, positive, overflow, ALWAYS, NEVER).  The claims
only depend on "ALWAYS" (the filled-in default) being a member. -/
def condNames : List String := ["M", "Z", "P", "V", "NEVER", "ALWAYS"]

/-- Modelled from the spec: `instruction_from_dict` of `instr_format.py`
(not under src/).  The opcode and predicate names are looked up in the
closed OpCode/CondFlag enumerations; an unknown name fails the lookup with
a `KeyError`, which `transform_line`'s `except KeyError` clause reports as
"Unknown word".  On success the instruction renders to its canonical text
(§3); the exact format of that text is not observed by any claim. -/
def instruction_from_dict (f : Fields) : Except PyExc String :=
  if pyStr f.opcode ∈ opcodeNames then
    if pyStr f.predicate ∈ condNames then
      .ok (pyStr f.opcode ++ "/" ++ pyStr f.predicate ++ "  " ++ pyStr f.target
        ++ "," ++ pyStr f.src1 ++ "," ++ pyStr f.src2 ++ "[" ++ pyStr f.offset ++ "]")
    else .error .keyErr
  else .error .keyErr

/-- `resolve_line(current_address, fields, sym_table)` (assembler_pass1.py
lines 225–239).  `new_addr = sym_table[fields['symbol']] - current_address`
(a `KeyError` if the symbol is absent); `JUMP` is rewritten to an `ADD`
into r15 with src1 r0 and src2 r15, with the predicate kept when truthy;
any other opcode keeps its opcode and target (rendered with Python's
format, so a missing target prints as "None") and the predicate is not
used at all. -/
def resolve_line (current_address : Nat) (fields : Fields)
    (sym_table : List (String × Nat)) : Except PyExc String :=
  match fields.symbol with
  | none => .error .keyErr
  | some s =>
    match dictGet? sym_table s with
    | none => .error .keyErr
    | some v =>
      let new_addr : Int := (v : Int) - (current_address : Int)
      if fields.opcode = some "JUMP" then
        if pyBool fields.predicate then
          .ok ("ADD" ++ "/" ++ pyStr fields.predicate ++ "  r15,r0,r15["
            ++ toString new_addr ++ "]")
        else
          .ok ("ADD" ++ " r15,r0,r15[" ++ toString new_addr ++ "]")
      else
        .ok (pyStr fields.opcode ++ "   " ++ pyStr fields.target ++ ",r0,r15["
          ++ toString new_addr ++ "]")

/-- The loop state of `transform_line`: the emitted `instructions`, the
pass-2 `address` counter, and the per-line errors printed by the except
clauses. -/
structure Pass2State where
  instructions : List String
  address : Nat
  errors : List PyExc
deriving DecidableEq

/-- One iteration of the `transform_line` loop (assembler_pass1.py lines
242–284).  FULL lines are encoded via `instruction_from_dict` after
`fill_defaults` (a `KeyError` skips the line); SYMBOL lines go through
`resolve_line` (a `KeyError` skips the line); DATA lines re-emit
`'label:  DATA value'` with the parsed label formatted verbatim (None
prints as "None") — when the value group is absent, `value_parse(None)`
raises an `AttributeError`, caught by the generic except clause, and the
line is skipped; COMMENT lines are re-emitted from their label/comment
fields and do not advance the address.  In every error case the line's
`address += 1` is never reached. -/
def transform_line_step (symb_table : List (String × Nat)) (st : Pass2State)
    (line : String) : Pass2State :=
  match parse_line line with
  | none => { st with errors := st.errors ++ [.synErr] }
  | some fields =>
    match fields.kind with
    | .FULL =>
      let fields := fill_defaults fields
      match instruction_from_dict fields with
      | .error e => { st with errors := st.errors ++ [e] }
      | .ok instr =>
        { st with instructions := st.instructions ++ [instr],
                  address := st.address + 1 }
    | .SYMBOL =>
      match resolve_line st.address fields symb_table with
      | .error e => { st with errors := st.errors ++ [e] }
      | .ok instr =>
        { st with instructions := st.instructions ++ [instr],
                  address := st.address + 1 }
    | .DATA =>
      match fields.value with
      | none => { st with errors := st.errors ++ [.excErr] }
      | some v =>
        let word := value_parse v
        let instr := pyStr fields.label ++ ":  DATA " ++ toString word
        { st with instructions := st.instructions ++ [instr],
                  address := st.address + 1 }
    | .COMMENT =>
      let instr :=
        if pyBool fields.label && pyBool fields.comment then
          pyStr fields.label ++ ":   " ++ pyStr fields.comment
        else if pyBool fields.label then
          pyStr fields.label ++ ":"
        else
          pyStr fields.comment
      { st with instructions := st.instructions ++ [instr] }

/-- `transform_line(lines, symb_table)` (pass 2), returning the full loop
state. -/
def transform_line (lines : List String) (symb_table : List (String × Nat)) :
    Pass2State :=
  lines.foldl (transform_line_step symb_table)
    { instructions := [], address := 0, errors := [] }

theorem build_table_append (pre : List String) (line : String) :
    build_table (pre ++ [line]) = build_table_step (build_table pre) line := by
  rw [build_table, build_table, List.foldl_append]
  rfl

/-- C6: build_table maps each label to the pass-1 address current when its
line is processed: the address starts at 0, increments by one for every
successfully parsed line of a non-comment kind (after recording that
line's label, if any), and does not increment for comment-only lines, so a
label on a comment-only line records the current address without advancing
it.  (A line that fails to parse leaves both table and address unchanged
and only records the error.) -/
theorem C6_build_table_labels (pre : List String) (line : String) :
    (build_table []).address = 0 ∧
    (parse_line line = none →
      (build_table (pre ++ [line])).address = (build_table pre).address ∧
      (build_table (pre ++ [line])).table = (build_table pre).table) ∧
    (∀ f, parse_line line = some f →
      (build_table (pre ++ [line])).address
        = (build_table pre).address + (if f.kind = .COMMENT then 0 else 1) ∧
      (build_table (pre ++ [line])).table
        = (if pyBool f.label
           then dictInsert (build_table pre).table (pyStr f.label)
                  (build_table pre).address
           else (build_table pre).table)) := by
  refine ⟨rfl, ?_, ?_⟩
  · intro hp
    rw [build_table_append]
    simp [build_table_step, hp]
  · intro f hp
    rw [build_table_append]
    simp only [build_table_step, hp]
    by_cases hl : pyBool f.label <;> by_cases hk : f.kind = .COMMENT <;>
      simp [hl, hk]

theorem C6_build_table_labels_witness :
    (build_table ["x: DATA 1"]).address = 1 ∧
    (build_table ["x: DATA 1"]).table = [("x", 0)] := by
  have h := (C6_build_table_labels [] "x: DATA 1").2.2
    { label := some "x", opcode := some "DATA", value := some "1", kind := .DATA }
    rfl
  simpa [pyBool, pyStr, dictInsert] using h

/-- C2, evaluation at the failing input: for the single line
`STORE r1,x` (a symbolic reference to an undefined symbol), pass 1 counts
the line and ends with address 1, while pass 2 hits the unresolved-symbol
KeyError in resolve_line before its `address += 1` and ends with address
0 — the two counters are not in lock-step after this prefix, contrary to
the claim. -/
theorem C2_lockstep_divergence :
    (build_table ["STORE r1,x"]).address = 1 ∧
    (transform_line ["STORE r1,x"] (build_table ["STORE r1,x"]).table).address = 0 ∧
    (transform_line ["STORE r1,x"] (build_table ["STORE r1,x"]).table).errors
      = [PyExc.keyErr] := by
  refine ⟨?_, ?_, ?_⟩ <;> rfl

/-- C5: for every symbolic-kind line whose symbol s is present in the
symbol table and every current pass-2 address a, resolve_line computes
new_offset = symbol_table[s] - a and returns: for opcode JUMP, an ADD
instruction with target r15, src1 r0, src2 r15 and offset new_offset; for
LOAD or STORE, the same opcode with the line's named target register,
src1 r0, src2 r15 and offset new_offset. -/
theorem C5_resolve_line_synthesis (a : Nat) (f : Fields)
    (tbl : List (String × Nat)) (s : String) (v : Nat)
    (hs : f.symbol = some s) (hv : dictGet? tbl s = some v) :
    (f.opcode = some "JUMP" →
      resolve_line a f tbl = .ok (if pyBool f.predicate
        then "ADD" ++ "/" ++ pyStr f.predicate ++ "  r15,r0,r15["
          ++ toString ((v : Int) - (a : Int)) ++ "]"
        else "ADD" ++ " r15,r0,r15[" ++ toString ((v : Int) - (a : Int)) ++ "]")) ∧
    (∀ t : String, (f.opcode = some "LOAD" ∨ f.opcode = some "STORE") →
      f.target = some t →
      resolve_line a f tbl
        = .ok (pyStr f.opcode ++ "   " ++ t ++ ",r0,r15["
            ++ toString ((v : Int) - (a : Int)) ++ "]")) := by
  constructor
  · intro hop
    by_cases hb : pyBool f.predicate <;> simp [resolve_line, hs, hv, hop, hb]
  · intro t hop ht
    rcases hop with hop | hop <;> simp [resolve_line, hs, hv, hop, ht, pyStr]

/-- Concrete symbolic fields as parsed from `LOAD r2,x`. -/
def symFieldsLoad : Fields :=
  { opcode := some "LOAD", target := some "r2", symbol := some "x",
    kind := .SYMBOL }

/-- Concrete symbolic fields as parsed from `JUMP loop`. -/
def symFieldsJump : Fields :=
  { opcode := some "JUMP", symbol := some "loop", kind := .SYMBOL }

theorem C5_resolve_line_synthesis_witness :
    resolve_line 3 symFieldsLoad [("x", 7)] = .ok "LOAD   r2,r0,r15[4]" ∧
    resolve_line 1 symFieldsJump [("loop", 0)] = .ok "ADD r15,r0,r15[-1]" := by
  constructor
  · have h := (C5_resolve_line_synthesis 3 symFieldsLoad [("x", 7)] "x" 7 rfl rfl).2
      "r2" (Or.inl rfl) rfl
    exact h.trans (by rfl)
  · have h := (C5_resolve_line_synthesis 1 symFieldsJump [("loop", 0)] "loop" 0
      rfl rfl).1 rfl
    exact h.trans (by rfl)

/-- C9: resolve_line discards the predicate of a symbolic LOAD or STORE
line — the re-synthesized text is built without the predicate, so it is
the same whatever the predicate was — whereas a symbolic JUMP line keeps
its predicate in the output. -/
theorem C9_resolve_line_predicate (a : Nat) (f : Fields)
    (tbl : List (String × Nat)) (s : String) (v : Nat) (p : String)
    (hs : f.symbol = some s) (hv : dictGet? tbl s = some v) :
    ((f.opcode = some "LOAD" ∨ f.opcode = some "STORE") →
      resolve_line a { f with predicate := some p } tbl
        = resolve_line a { f with predicate := none } tbl ∧
      resolve_line a f tbl
        = .ok (pyStr f.opcode ++ "   " ++ pyStr f.target ++ ",r0,r15["
            ++ toString ((v : Int) - (a : Int)) ++ "]")) ∧
    (f.opcode = some "JUMP" → f.predicate = some p → ¬p.isEmpty →
      resolve_line a f tbl
        = .ok ("ADD" ++ "/" ++ p ++ "  r15,r0,r15["
            ++ toString ((v : Int) - (a : Int)) ++ "]")) := by
  constructor
  · intro hop
    rcases hop with hop | hop <;>
      exact ⟨by simp [resolve_line, hs, hv, hop], by simp [resolve_line, hs, hv, hop]⟩
  · intro hop hpred hp
    have hb : p.isEmpty = false := by
      cases hpe : p.isEmpty
      · rfl
      · exact absurd hpe hp
    simp [resolve_line, hs, hv, hop, hpred, pyStr, pyBool, hb]

/-- Concrete symbolic fields as parsed from `STORE/P r1,x`. -/
def symFieldsStoreP : Fields :=
  { opcode := some "STORE", predicate := some "P", target := some "r1",
    symbol := some "x", kind := .SYMBOL }

theorem C9_resolve_line_predicate_witness :
    resolve_line 0 symFieldsStoreP [("x", 2)]
      = resolve_line 0 { symFieldsStoreP with predicate := none } [("x", 2)] ∧
    resolve_line 1 { symFieldsJump with predicate := some "Z" } [("loop", 0)]
      = .ok "ADD/Z  r15,r0,r15[-1]" := by
  constructor
  · have h := ((C9_resolve_line_predicate 0 symFieldsStoreP [("x", 2)] "x" 2 "P"
      rfl rfl).1 (Or.inr rfl)).1
    exact h
  · have h := (C9_resolve_line_predicate 1
      { symFieldsJump with predicate := some "Z" } [("loop", 0)] "loop" 0 "Z"
      rfl rfl).2 rfl rfl (by decide)
    exact h.trans (by rfl)

/-- C8, counterexample: the line `BOGUS r1,r2,r3` does not raise a syntax
error — it fully matches ASM_FULL_PAT (kind FULL), pass 1 reports no error
at all, and the only reported error is the pass-2 KeyError ("Unknown
word") from the opcode lookup. -/
theorem C8_counterexample :
    Option.map Fields.kind (parse_line "BOGUS r1,r2,r3") = some AsmSrcKind.FULL ∧
    (build_table ["BOGUS r1,r2,r3"]).errors = [] ∧
    (transform_line ["BOGUS r1,r2,r3"] (build_table ["BOGUS r1,r2,r3"]).table).errors
      = [PyExc.keyErr] := by
  refine ⟨?_, ?_, ?_⟩ <;> rfl

/-- C8, amended: assembling `BOGUS r1,r2,r3` reports an unknown-word error
(a KeyError from the opcode-enumeration lookup in pass 2), and the line
contributes no entry to the symbol table and no line to the resolved
output. -/
theorem C8_bogus_line :
    (build_table ["BOGUS r1,r2,r3"]).table = [] ∧
    (transform_line ["BOGUS r1,r2,r3"] (build_table ["BOGUS r1,r2,r3"]).table).instructions
      = [] ∧
    (transform_line ["BOGUS r1,r2,r3"] (build_table ["BOGUS r1,r2,r3"]).table).errors
      = [PyExc.keyErr] := by
  refine ⟨?_, ?_, ?_⟩ <;> rfl

/-- C10, counterexample: `DATA` (no value) is a successfully parsed
DATA-kind line, yet transform_line emits nothing for it — `value_parse(None)`
raises, the generic except clause reports it, and the line is skipped —
so not every successfully parsed DATA line is re-emitted. -/
theorem C10_counterexample :
    Option.map Fields.kind (parse_line "DATA") = some AsmSrcKind.DATA ∧
    (transform_line ["DATA"] []).instructions = [] ∧
    (transform_line ["DATA"] []).errors = [PyExc.excErr] := by
  refine ⟨?_, ?_, ?_⟩ <;> rfl

/-- C10, amended: transform_line re-emits every successfully parsed DATA
line that has a value as the text `<label>:  DATA <value>` using the
parsed label field verbatim — so a DATA line written without a label is
emitted with the literal text "None" in the label position (e.g.
`None:  DATA 5`); a DATA line with no value is skipped with an error. -/
theorem C10_data_reemission (tbl : List (String × Nat)) (st : Pass2State)
    (line : String) (f : Fields) (v : String)
    (hp : parse_line line = some f) (hk : f.kind = .DATA) (hv : f.value = some v) :
    (transform_line_step tbl st line).instructions
      = st.instructions
          ++ [pyStr f.label ++ ":  DATA " ++ toString (value_parse v)] ∧
    (transform_line_step tbl st line).address = st.address + 1 := by
  simp [transform_line_step, hp, hk, hv]

theorem C10_data_reemission_witness :
    (transform_line ["DATA 5"] []).instructions = ["None:  DATA 5"] := by
  have h := C10_data_reemission [] { instructions := [], address := 0, errors := [] }
    "DATA 5" { opcode := some "DATA", value := some "5", kind := .DATA } "5" rfl rfl rfl
  exact h.1.trans (by rfl)

end Duck
